import Mathlib

/-!
Verification of the order-form component in `src/components/OrderForm.tsx`.

The component keeps one record of field values (`FormValues`), validates it
with a Yup schema (`OrderSchema`, embedded here as one boolean validator per
field), recomputes the derived `pricePerKg` field from `category` in a
reactive effect (`PriceCalculator`), and on submit logs the values augmented
with a `totalPrice` string and resets the form to `initialFormValues`.

Numbers are embedded as rationals; a JavaScript number field that can hold
`undefined` (the unguarded record lookup `categoryPrices[values.category]`)
is embedded as `Option ℚ`, with `none` standing for `undefined`.
-/

/-- The static category → price-per-kg table (`categoryPrices` in the source).
A JavaScript record lookup on a missing key yields `undefined`, hence
`Option ℚ` with `none` for a key absent from the table. -/
def categoryPrices (s : String) : Option ℚ :=
  if s = "Amazon cat A" then some 20
  else if s = "Amazon cat B" then some 25
  else if s = "Aliexpress" then some 35
  else if s = "Temu" then some 50
  else none

/-- The form value record (`FormValues` in the source). `pricePerKg` is
`Option ℚ` because the reactive effect can write the result of an unguarded
table lookup into it, which is `undefined` for an unknown key. -/
structure FormValues where
  username : String
  tel : String
  email : String
  delivery : String
  restrictions : List String
  deliveryTime : String
  message : String
  weight : ℚ
  pricePerKg : Option ℚ
  category : String
deriving DecidableEq, Repr

/-- Seed defaults (`initialFormValues` in the source). -/
def initialFormValues : FormValues :=
  { username := "Руслан"
    tel := "232342432424"
    email := "youremail@mail.com"
    delivery := "pickup"
    restrictions := []
    deliveryTime := "afternoon"
    message := ""
    weight := 1
    pricePerKg := some 0
    category := "" }

/-! ## The Yup validation schema (`OrderSchema`)

Each field's chained Yup validators are embedded as one boolean function.
`required` on a string fails exactly on the empty string (all our strings are
defined); `min`/`max` compare lengths; `oneOf` is membership; `required` on
the `Option ℚ` price fails on `none` (undefined), and `min(0.1)` is the
numeric comparison. -/

/-- Characters allowed in the local part of Yup's email regular expression:
letters, digits, and the punctuation class of the pattern. -/
def emailLocalChar (c : Char) : Bool :=
  c.isAlphanum || c = '.' || c = '!' || c = '#' || c = '$' || c = '%' ||
  c = '&' || c = Char.ofNat 39 || c = '*' || c = '+' || c = '/' || c = '=' ||
  c = '?' || c = '^' || c = '_' || c = Char.ofNat 96 || c = Char.ofNat 123 ||
  c = '|' || c = Char.ofNat 125 || c = '~' || c = '-'

/-- A domain label of Yup's email pattern: a single alphanumeric character,
or an alphanumeric character followed by up to 61 alphanumeric-or-hyphen
characters and a final alphanumeric character. -/
def domainLabelOk : List Char → Bool
  | [] => false
  | [c] => c.isAlphanum
  | c :: rest =>
      c.isAlphanum && decide (rest.length ≤ 62) &&
      (rest.getLastD 'A').isAlphanum &&
      rest.dropLast.all (fun d => d.isAlphanum || d = '-')

/-- Split a character list at every occurrence of the separator `c`; the
result always has at least one group, and empty groups are kept (the
behavior of splitting a string on a single-character separator). -/
def splitOnChar (c : Char) : List Char → List (List Char)
  | [] => [[]]
  | a :: rest =>
      if a = c then [] :: splitOnChar c rest
      else
        match splitOnChar c rest with
        | [] => [[a]]
        | g :: gs => (a :: g) :: gs

/-- Yup's email shape test: a nonempty local part of allowed characters, one
at-sign, and a dot-separated sequence of valid domain labels. -/
def emailMatches (s : String) : Bool :=
  match splitOnChar '@' s.toList with
  | [localPart, domain] =>
      decide (localPart ≠ []) && localPart.all emailLocalChar &&
      (splitOnChar '.' domain).all domainLabelOk
  | _ => false

/-- `Yup.string().min(2).required()` for `username`. -/
def usernameValid (s : String) : Bool :=
  decide (2 ≤ s.length) && decide (s ≠ "")

/-- `Yup.string().min(5).required()` for `tel`. -/
def telValid (s : String) : Bool :=
  decide (5 ≤ s.length) && decide (s ≠ "")

/-- `Yup.string().email().required()` for `email` (the email test skips the
empty string, which `required` rejects instead). -/
def emailValid (s : String) : Bool :=
  decide (s ≠ "") && (s == "" || emailMatches s)

/-- `Yup.string().oneOf(["pickup", "courier", "drone"]).required()`. -/
def deliveryValid (s : String) : Bool :=
  decide (s = "pickup" ∨ s = "courier" ∨ s = "drone")

/-- The inner `Yup.string().oneOf(["vegan", "gluten-free", "nut-free"])`. -/
def restrictionToken (s : String) : Bool :=
  decide (s = "vegan" ∨ s = "gluten-free" ∨ s = "nut-free")

/-- `Yup.array().of(...)` for `restrictions`: every element passes the
element validator. -/
def restrictionsValid (l : List String) : Bool :=
  l.all restrictionToken

/-- `Yup.string().required()` for `deliveryTime` — note: no `oneOf` in the
schema, only non-emptiness. -/
def deliveryTimeValid (s : String) : Bool :=
  decide (s ≠ "")

/-- `Yup.string().max(200)` for `message` (not required). -/
def messageValid (s : String) : Bool :=
  decide (s.length ≤ 200)

/-- `Yup.number().min(0.1).required()` for `weight`. -/
def weightValid (w : ℚ) : Bool :=
  decide ((1 : ℚ) / 10 ≤ w)

/-- `Yup.number().min(0.1).required()` for `pricePerKg`: `undefined` fails
`required`; a number must be at least 0.1. -/
def pricePerKgValid : Option ℚ → Bool
  | none => false
  | some p => decide ((1 : ℚ) / 10 ≤ p)

/-- `Yup.string().required()` for `category`. -/
def categoryValid (s : String) : Bool :=
  decide (s ≠ "")

/-- The names of the fields whose validator fails, in schema order; each such
field shows an inline `ErrorMessage` keyed to its name. -/
def formErrors (v : FormValues) : List String :=
  (if usernameValid v.username then [] else ["username"]) ++
  (if telValid v.tel then [] else ["tel"]) ++
  (if emailValid v.email then [] else ["email"]) ++
  (if deliveryValid v.delivery then [] else ["delivery"]) ++
  (if restrictionsValid v.restrictions then [] else ["restrictions"]) ++
  (if deliveryTimeValid v.deliveryTime then [] else ["deliveryTime"]) ++
  (if messageValid v.message then [] else ["message"]) ++
  (if weightValid v.weight then [] else ["weight"]) ++
  (if pricePerKgValid v.pricePerKg then [] else ["pricePerKg"]) ++
  (if categoryValid v.category then [] else ["category"])

/-- Whole-schema validation: every field validator passes. Submission is
forwarded to `handleSubmit` exactly when this holds. -/
def formValid (v : FormValues) : Bool :=
  usernameValid v.username && telValid v.tel && emailValid v.email &&
  deliveryValid v.delivery && restrictionsValid v.restrictions &&
  deliveryTimeValid v.deliveryTime && messageValid v.message &&
  weightValid v.weight && pricePerKgValid v.pricePerKg &&
  categoryValid v.category

/-! ## The price computation (`calculatePrice`) -/

/-- The rational value denoted by `x.toFixed(2)`: the nearest multiple of
1/100, ties to the larger candidate (Mathlib's `round` is `⌊x + 1/2⌋`,
which matches the ECMAScript tie rule for `toFixed`). -/
def jsToFixed2 (x : ℚ) : ℚ :=
  ((round (x * 100) : ℤ) : ℚ) / 100

/-- Print a number of cents as a decimal string with exactly two digits
after the point. -/
def formatCents (n : ℤ) : String :=
  (if n < 0 then "-" else "") ++ toString (n.natAbs / 100) ++ "." ++
  (if n.natAbs % 100 < 10 then "0" else "") ++ toString (n.natAbs % 100)

/-- The string produced by `x.toFixed(2)`: the rounded value printed with
exactly two digits after the decimal point. -/
def formatFixed2 (x : ℚ) : String :=
  formatCents (round (x * 100))

/-- `calculatePrice(weight, pricePerKg)` from the source:
`(weight * pricePerKg).toFixed(2)`, a string. -/
def calculatePrice (weight pricePerKg : ℚ) : String :=
  formatFixed2 (weight * pricePerKg)

/-- The rational value of `calculatePrice(weight, pricePerKg)`. -/
def calculatePriceVal (weight pricePerKg : ℚ) : ℚ :=
  jsToFixed2 (weight * pricePerKg)

/-- Modelled from the spec: "rounded to 2 decimal places" — round half up at
the second decimal, written independently of `jsToFixed2` for comparison. -/
def specRound2 (x : ℚ) : ℚ :=
  ((⌊x * 100 + 1 / 2⌋ : ℤ) : ℚ) / 100

/-! ## The reactive effect (`PriceCalculator`) and form edits -/

/-- The body of the `useEffect` in `PriceCalculator`: if `category` is truthy
(non-empty), write the unguarded lookup `categoryPrices[category]` into
`pricePerKg`; otherwise write 0. -/
def applyPriceEffect (v : FormValues) : FormValues :=
  if v.category ≠ "" then { v with pricePerKg := categoryPrices v.category }
  else { v with pricePerKg := some 0 }

/-- A user edit. There is one constructor per rendered input; `pricePerKg`
has no bound input widget, so no edit writes it — only the effect does. -/
inductive Edit where
  | setUsername (s : String)
  | setTel (s : String)
  | setEmail (s : String)
  | setDelivery (s : String)
  | setRestrictions (l : List String)
  | setDeliveryTime (s : String)
  | setMessage (s : String)
  | setWeight (q : ℚ)
  | setCategory (s : String)
deriving DecidableEq, Repr

/-- Apply a user edit to the form state. -/
def applyEdit (v : FormValues) : Edit → FormValues
  | .setUsername s => { v with username := s }
  | .setTel s => { v with tel := s }
  | .setEmail s => { v with email := s }
  | .setDelivery s => { v with delivery := s }
  | .setRestrictions l => { v with restrictions := l }
  | .setDeliveryTime s => { v with deliveryTime := s }
  | .setMessage s => { v with message := s }
  | .setWeight q => { v with weight := q }
  | .setCategory s => { v with category := s }

/-- One edit step followed by the effect when its dependency changed: the
effect's dependency array is `[values.category]`, so it re-runs exactly when
the edit changed `category`. -/
def stepEdit (v : FormValues) (e : Edit) : FormValues :=
  let v2 := applyEdit v e
  if v2.category = v.category then v2 else applyPriceEffect v2

/-- The form states observable after the reactive effect has settled: the
mounted initial state (the effect runs once on mount) and every state
obtained from a reachable state by a user edit plus the conditional effect
re-run. -/
inductive Reachable : FormValues → Prop
  | init : Reachable (applyPriceEffect initialFormValues)
  | step (v : FormValues) (e : Edit) : Reachable v → Reachable (stepEdit v e)

/-! ## Submission (`handleSubmit`) -/

/-- The string `calculatePrice(values.weight, values.pricePerKg)` computed by
`handleSubmit`: with `pricePerKg` undefined the product is NaN and
`toFixed(2)` prints "NaN". -/
def totalPriceOf (v : FormValues) : String :=
  match v.pricePerKg with
  | some p => calculatePrice v.weight p
  | none => "NaN"

/-- `handleSubmit`: logs the field values augmented with `totalPrice` and
resets the form to the seed defaults. The result is the logged payload
(values paired with the `totalPrice` string) and the post-reset state. -/
def handleSubmit (v : FormValues) : (FormValues × String) × FormValues :=
  ((v, totalPriceOf v), initialFormValues)

/-! ## Helper lemmas -/

/-- The effect establishes the price invariant on any state it runs on. -/
theorem applyPriceEffect_pricePerKg (v : FormValues) :
    (applyPriceEffect v).pricePerKg =
      if v.category = "" then some 0 else categoryPrices v.category := by
  unfold applyPriceEffect
  by_cases h : v.category = "" <;> simp [h]

/-- The effect never changes `category`. -/
theorem applyPriceEffect_category (v : FormValues) :
    (applyPriceEffect v).category = v.category := by
  unfold applyPriceEffect
  by_cases h : v.category = "" <;> simp [h]

/-- No user edit writes `pricePerKg`: only the effect does. -/
theorem applyEdit_pricePerKg (v : FormValues) (e : Edit) :
    (applyEdit v e).pricePerKg = v.pricePerKg := by
  cases e <;> rfl

/-- A concrete schema-valid input used by several properties below. -/
def exampleInput : FormValues :=
  { username := "Ann"
    tel := "12345"
    email := "a@b.com"
    delivery := "pickup"
    restrictions := []
    deliveryTime := "morning"
    message := ""
    weight := 2
    pricePerKg := some 50
    category := "Temu" }

/-- A concrete state whose category differs from every category mentioned in
the derived-price property. -/
def midState : FormValues :=
  { initialFormValues with category := "Amazon cat B" }

/-- A 201-character message. -/
def longMessage : String :=
  String.mk (List.replicate 201 'a')

/-- Evaluation of the weight validator at the weights used below. -/
theorem weightValid_eval : weightValid 1 = true ∧ weightValid 2 = true ∧
    weightValid 0 = false := by
  refine ⟨?_, ?_, ?_⟩ <;> unfold weightValid
  · rw [decide_eq_true_eq]; norm_num
  · rw [decide_eq_true_eq]; norm_num
  · rw [decide_eq_false_iff_not]; norm_num

/-- Evaluation of the price validator at the prices used below. -/
theorem pricePerKgValid_eval : pricePerKgValid (some 50) = true ∧
    pricePerKgValid (some 0) = false ∧ pricePerKgValid none = false := by
  refine ⟨?_, ?_, rfl⟩ <;> unfold pricePerKgValid
  · rw [decide_eq_true_eq]; norm_num
  · rw [decide_eq_false_iff_not]; norm_num

/-- The example input passes the whole schema. -/
theorem formValid_exampleInput : formValid exampleInput = true := by
  simp [formValid, exampleInput, weightValid_eval.2.1, pricePerKgValid_eval.1]
  decide

/-- Setting `category` to a genuinely new value runs the effect on the
updated state. -/
theorem stepEdit_setCategory (v : FormValues) (s : String) (h : s ≠ v.category) :
    stepEdit v (.setCategory s) = applyPriceEffect { v with category := s } := by
  simp [stepEdit, applyEdit, h]

/-- Claim C1: in every reachable form state, after the reactive recomputation
effect has run, `pricePerKg` equals the `categoryPrices` lookup for the
current category when the category is non-empty and 0 when it is empty,
regardless of any other field edits (no edit writes `pricePerKg`). -/
theorem claim_C1 (v : FormValues) (h : Reachable v) :
    v.pricePerKg =
      if v.category = "" then some 0 else categoryPrices v.category := by
  induction h with
  | init => exact applyPriceEffect_pricePerKg initialFormValues
  | step w e hw ih =>
      simp only [stepEdit]
      by_cases hc : (applyEdit w e).category = w.category
      · rw [if_pos hc, applyEdit_pricePerKg, hc, ih]
      · rw [if_neg hc, applyPriceEffect_pricePerKg, applyPriceEffect_category]

/-- Witness for C1 at the mounted initial state. -/
theorem claim_C1_witness :
    Reachable (applyPriceEffect initialFormValues) ∧
    (applyPriceEffect initialFormValues).pricePerKg =
      (if (applyPriceEffect initialFormValues).category = "" then some 0
       else categoryPrices (applyPriceEffect initialFormValues).category) :=
  ⟨Reachable.init, claim_C1 _ Reachable.init⟩

/-- Claim C2: for every weight and price at least 0.1, the total computed by
`calculatePrice` is `weight * pricePerKg` rounded to two decimal places
(`specRound2`), and the emitted string is that rounded value formatted with
two decimal digits. -/
theorem claim_C2 (w p : ℚ) (hw : (1 : ℚ) / 10 ≤ w) (hp : (1 : ℚ) / 10 ≤ p) :
    calculatePriceVal w p = specRound2 (w * p) ∧
    calculatePrice w p = formatFixed2 (specRound2 (w * p)) := by
  have h100 : (100 : ℚ) ≠ 0 := by norm_num
  have hkey : round (specRound2 (w * p) * 100) = round (w * p * 100) := by
    unfold specRound2
    rw [div_mul_cancel₀ _ h100, round_intCast, round_eq]
  constructor
  · unfold calculatePriceVal jsToFixed2 specRound2
    rw [round_eq]
  · unfold calculatePrice formatFixed2
    rw [hkey]

/-- Witness for C2 at weight 2 and price 50. -/
theorem claim_C2_witness :
    (1 : ℚ) / 10 ≤ 2 ∧ (1 : ℚ) / 10 ≤ 50 ∧
    calculatePriceVal 2 50 = specRound2 (2 * 50) ∧
    calculatePrice 2 50 = formatFixed2 (specRound2 (2 * 50)) := by
  have h1 : (1 : ℚ) / 10 ≤ 2 := by norm_num
  have h2 : (1 : ℚ) / 10 ≤ 50 := by norm_num
  exact ⟨h1, h2, (claim_C2 2 50 h1 h2).1, (claim_C2 2 50 h1 h2).2⟩

/-- Claim C3: changing `category` to "Amazon cat A" drives `pricePerKg` to
20, to "Aliexpress" 35, to "Temu" 50, and clearing it drives `pricePerKg`
to 0. -/
theorem claim_C3 (v : FormValues)
    (h1 : v.category ≠ "Amazon cat A") (h2 : v.category ≠ "Aliexpress")
    (h3 : v.category ≠ "Temu") (h4 : v.category ≠ "") :
    (stepEdit v (.setCategory "Amazon cat A")).pricePerKg = some 20 ∧
    (stepEdit v (.setCategory "Aliexpress")).pricePerKg = some 35 ∧
    (stepEdit v (.setCategory "Temu")).pricePerKg = some 50 ∧
    (stepEdit v (.setCategory "")).pricePerKg = some 0 := by
  refine ⟨?_, ?_, ?_, ?_⟩
  · rw [stepEdit_setCategory v _ (fun hx => h1 hx.symm)]
    simp [applyPriceEffect, categoryPrices]
  · rw [stepEdit_setCategory v _ (fun hx => h2 hx.symm)]
    simp [applyPriceEffect, categoryPrices]
  · rw [stepEdit_setCategory v _ (fun hx => h3 hx.symm)]
    simp [applyPriceEffect, categoryPrices]
  · rw [stepEdit_setCategory v _ (fun hx => h4 hx.symm)]
    simp [applyPriceEffect]

/-- Witness for C3 at a state whose category is "Amazon cat B". -/
theorem claim_C3_witness :
    midState.category ≠ "Amazon cat A" ∧ midState.category ≠ "Aliexpress" ∧
    midState.category ≠ "Temu" ∧ midState.category ≠ "" ∧
    (stepEdit midState (.setCategory "Temu")).pricePerKg = some 50 :=
  ⟨by decide, by decide, by decide, by decide,
   (claim_C3 midState (by decide) (by decide) (by decide) (by decide)).2.2.1⟩

/-- Claim C4: the schema-valid example input (category "Temu", weight 2,
price 50) submits the field values augmented with totalPrice "100.00" and
resets the form to the seed defaults; its price is what the effect derives
for "Temu". -/
theorem claim_C4 :
    formValid exampleInput = true ∧
    (applyPriceEffect exampleInput).pricePerKg = some 50 ∧
    handleSubmit exampleInput = ((exampleInput, "100.00"), initialFormValues) := by
  have h : round ((2 : ℚ) * 50 * 100) = 10000 := by rw [round_eq]; norm_num
  refine ⟨formValid_exampleInput, ?_, ?_⟩
  · simp [applyPriceEffect, exampleInput, categoryPrices]
  · simp [handleSubmit, totalPriceOf, exampleInput, calculatePrice, formatFixed2, h]
    decide

/-- Claim C5: a username of length 1, a tel of length 4, the email
"not-an-email", a weight of 0, or an empty deliveryTime each fail schema
validation with an inline error keyed to that field, blocking submission. -/
theorem claim_C5 (v : FormValues) :
    (v.username.length = 1 →
      "username" ∈ formErrors v ∧ formValid v = false) ∧
    (v.tel.length = 4 →
      "tel" ∈ formErrors v ∧ formValid v = false) ∧
    (v.email = "not-an-email" →
      "email" ∈ formErrors v ∧ formValid v = false) ∧
    (v.weight = 0 →
      "weight" ∈ formErrors v ∧ formValid v = false) ∧
    (v.deliveryTime = "" →
      "deliveryTime" ∈ formErrors v ∧ formValid v = false) := by
  refine ⟨fun h => ?_, fun h => ?_, fun h => ?_, fun h => ?_, fun h => ?_⟩
  · have hlt : ¬ (2 ≤ v.username.length) := by omega
    have hu : usernameValid v.username = false := by
      unfold usernameValid
      rw [decide_eq_false hlt, Bool.false_and]
    exact ⟨by simp [formErrors, hu], by simp [formValid, hu]⟩
  · have hlt : ¬ (5 ≤ v.tel.length) := by omega
    have ht : telValid v.tel = false := by
      unfold telValid
      rw [decide_eq_false hlt, Bool.false_and]
    exact ⟨by simp [formErrors, ht], by simp [formValid, ht]⟩
  · have he : emailValid v.email = false := by rw [h]; decide
    exact ⟨by simp [formErrors, he], by simp [formValid, he]⟩
  · have hw : weightValid v.weight = false := by rw [h]; exact weightValid_eval.2.2
    exact ⟨by simp [formErrors, hw], by simp [formValid, hw]⟩
  · have hd : deliveryTimeValid v.deliveryTime = false := by rw [h]; decide
    exact ⟨by simp [formErrors, hd], by simp [formValid, hd]⟩

/-- Witness for C5: each failing field exhibited on a concrete form. -/
theorem claim_C5_witness :
    ("username" ∈ formErrors { exampleInput with username := "A" } ∧
      formValid { exampleInput with username := "A" } = false) ∧
    ("tel" ∈ formErrors { exampleInput with tel := "1234" } ∧
      formValid { exampleInput with tel := "1234" } = false) ∧
    ("email" ∈ formErrors { exampleInput with email := "not-an-email" } ∧
      formValid { exampleInput with email := "not-an-email" } = false) ∧
    ("weight" ∈ formErrors { exampleInput with weight := 0 } ∧
      formValid { exampleInput with weight := 0 } = false) ∧
    ("deliveryTime" ∈ formErrors { exampleInput with deliveryTime := "" } ∧
      formValid { exampleInput with deliveryTime := "" } = false) :=
  ⟨(claim_C5 _).1 rfl, (claim_C5 _).2.1 rfl, (claim_C5 _).2.2.1 rfl,
   (claim_C5 _).2.2.2.1 rfl, (claim_C5 _).2.2.2.2 rfl⟩

/-- Counterexample to C6 as stated: "noon" is non-empty and outside
{morning, afternoon, evening}, yet it passes the deliveryTime validator and
the whole schema — the schema has no enumeration check on this field. -/
theorem claim_C6_counterexample :
    deliveryTimeValid "noon" = true ∧
    ("noon" : String) ≠ "morning" ∧ ("noon" : String) ≠ "afternoon" ∧
    ("noon" : String) ≠ "evening" ∧ ("noon" : String) ≠ "" ∧
    formValid { exampleInput with deliveryTime := "noon" } = true := by
  refine ⟨by decide, by decide, by decide, by decide, by decide, ?_⟩
  simp [formValid, exampleInput, weightValid_eval.2.1, pricePerKgValid_eval.1]
  decide

/-- Claim C6 (amended): the schema only requires `deliveryTime` to be
non-empty; replacing it by any non-empty string — enumerated or not —
preserves schema validity. -/
theorem claim_C6 (v : FormValues) (hv : formValid v = true)
    (s : String) (hs : s ≠ "") :
    formValid { v with deliveryTime := s } = true := by
  have hd : deliveryTimeValid s = true := decide_eq_true hs
  unfold formValid at hv ⊢
  simp only [Bool.and_eq_true] at hv ⊢
  obtain ⟨⟨⟨⟨⟨⟨⟨⟨⟨h1, h2⟩, h3⟩, h4⟩, h5⟩, h6⟩, h7⟩, h8⟩, h9⟩, h10⟩ := hv
  exact ⟨⟨⟨⟨⟨⟨⟨⟨⟨h1, h2⟩, h3⟩, h4⟩, h5⟩, hd⟩, h7⟩, h8⟩, h9⟩, h10⟩

/-- Witness for the amended C6 at the example input and "noon". -/
theorem claim_C6_witness :
    formValid exampleInput = true ∧ ("noon" : String) ≠ "" ∧
    formValid { exampleInput with deliveryTime := "noon" } = true :=
  ⟨formValid_exampleInput, by decide,
   claim_C6 exampleInput formValid_exampleInput "noon" (by decide)⟩

/-- Claim C7: the restrictions validator accepts exactly the lists all of
whose tokens are in {vegan, gluten-free, nut-free} — every subset including
the empty one — and rejects any list with a token outside that set. -/
theorem claim_C7 (l : List String) :
    restrictionsValid l = true ↔
      ∀ x ∈ l, x = "vegan" ∨ x = "gluten-free" ∨ x = "nut-free" := by
  simp [restrictionsValid, restrictionToken, List.all_eq_true]

/-- Witness for C7 on a two-token subset. -/
theorem claim_C7_witness :
    restrictionsValid ["vegan", "nut-free"] = true :=
  (claim_C7 ["vegan", "nut-free"]).mpr (by decide)

/-- Claim C8: the message validator accepts every string of length at most
200 and rejects one of length 201. -/
theorem claim_C8 (s : String) :
    (s.length ≤ 200 → messageValid s = true) ∧
    (s.length = 201 → messageValid s = false) := by
  constructor
  · intro h
    unfold messageValid
    exact decide_eq_true h
  · intro h
    unfold messageValid
    apply decide_eq_false
    omega

set_option maxRecDepth 8000 in
/-- Witness for C8: a short message passes and a 201-character one fails. -/
theorem claim_C8_witness :
    messageValid "ok" = true ∧ messageValid longMessage = false :=
  ⟨(claim_C8 "ok").1 (by decide), (claim_C8 longMessage).2 (by decide)⟩

/-- Claim C9: when the category is non-empty but absent from the price
table, the effect writes the unguarded lookup — undefined, embedded as
`none` — into `pricePerKg`, not 0. -/
theorem claim_C9 (v : FormValues) (h1 : v.category ≠ "")
    (h2 : categoryPrices v.category = none) :
    (applyPriceEffect v).pricePerKg = categoryPrices v.category ∧
    (applyPriceEffect v).pricePerKg = none ∧
    (applyPriceEffect v).pricePerKg ≠ some 0 := by
  have hp := applyPriceEffect_pricePerKg v
  rw [if_neg h1] at hp
  refine ⟨hp, by rw [hp, h2], by rw [hp, h2]; simp⟩

/-- Witness for C9 at the unknown category "Shein". -/
theorem claim_C9_witness :
    ({ exampleInput with category := "Shein" } : FormValues).category ≠ "" ∧
    categoryPrices "Shein" = none ∧
    (applyPriceEffect { exampleInput with category := "Shein" }).pricePerKg
      = none :=
  ⟨by decide, by decide, (claim_C9 _ (by decide) (by decide)).2.1⟩

/-- Claim C10: the seed defaults fail the schema — exactly `pricePerKg`
(0 < 0.1) and `category` (empty but required) are rejected — also right
after the mount effect runs, so a fresh or just-reset form cannot be
submitted unchanged; one category selection then restores validity. -/
theorem claim_C10 :
    formValid initialFormValues = false ∧
    formErrors initialFormValues = ["pricePerKg", "category"] ∧
    formValid (applyPriceEffect initialFormValues) = false ∧
    formValid
      (stepEdit (applyPriceEffect initialFormValues) (.setCategory "Temu"))
      = true := by
  have hmount : applyPriceEffect initialFormValues = initialFormValues := rfl
  have hinvalid : formValid initialFormValues = false := by
    simp [formValid, initialFormValues, pricePerKgValid_eval.2.1]
  refine ⟨hinvalid, ?_, by rw [hmount]; exact hinvalid, ?_⟩
  · simp [formErrors, initialFormValues, weightValid_eval.1,
      pricePerKgValid_eval.2.1]
    decide
  · rw [hmount, stepEdit_setCategory _ _ (by decide)]
    simp [applyPriceEffect, initialFormValues, categoryPrices, formValid,
      weightValid_eval.1, pricePerKgValid_eval.1]
    decide
